import Mathlib

/-!
Verification of the static-site build pipeline: a shallow embedding of
`build.py` (site builder) and `watch_build.py` (change watcher), with
theorems checking the documented properties of both components.

Conventions of the embedding:
* a filesystem subtree is an association list from relative paths
  (lists of path segments) to file contents;
* Python exceptions become `Except`;
* Python `sorted` over `pathlib` paths is insertion sort over the
  lexicographic order on segment lists (segment order is code-point order,
  as in CPython's `PurePath` comparison);
* the Jinja template engine is out of scope and enters as an arbitrary
  deterministic rendering function parameter.
-/

/-- Relative path, as its list of segments (`pathlib.PurePath.parts`). -/
abbrev RelPath := List String

/-- POSIX form of a relative path (`PurePath.as_posix`). -/
def pathStr (p : RelPath) : String := String.intercalate "/" p

/-- Final path segment (`PurePath.name`). -/
def fileName : RelPath → String
  | [] => ""
  | [x] => x
  | _ :: xs => fileName xs

/-- Code-point lexicographic strict order on character lists, the order CPython
uses to compare strings. -/
def charsLt : List Char → List Char → Bool
  | [], [] => false
  | [], _ :: _ => true
  | _ :: _, [] => false
  | a :: as, b :: bs => if a = b then charsLt as bs else decide (a.toNat < b.toNat)

/-- CPython string `<`. -/
def strLtB (a b : String) : Bool := charsLt a.data b.data

/-- List lexicographic strict order on segment lists: CPython compares paths by
their (case-sensitive, on POSIX) parts tuples. -/
def partsLt : List String → List String → Bool
  | [], [] => false
  | [], _ :: _ => true
  | _ :: _, [] => false
  | a :: as, b :: bs => if a = b then partsLt as bs else strLtB a b

lemma charsLt_asymm : ∀ {a b : List Char}, charsLt a b = true → charsLt b a = false := by
  intro a
  induction a with
  | nil =>
    intro b h
    cases b with
    | nil => simp [charsLt] at h
    | cons y ys => simp [charsLt]
  | cons x xs ih =>
    intro b h
    cases b with
    | nil => simp [charsLt] at h
    | cons y ys =>
      simp only [charsLt] at h ⊢
      by_cases hxy : x = y
      · subst hxy
        simp only [if_pos rfl] at h ⊢
        exact ih h
      · have hyx : ¬ y = x := fun e => hxy e.symm
        simp only [if_neg hxy, decide_eq_true_eq] at h
        simp only [if_neg hyx, decide_eq_false_iff_not]
        omega

lemma charsLt_trans : ∀ {a b c : List Char},
    charsLt a b = true → charsLt b c = true → charsLt a c = true := by
  intro a
  induction a with
  | nil =>
    intro b c h1 h2
    cases b with
    | nil => simp [charsLt] at h1
    | cons y ys =>
      cases c with
      | nil => simp [charsLt] at h2
      | cons z zs => simp [charsLt]
  | cons x xs ih =>
    intro b c h1 h2
    cases b with
    | nil => simp [charsLt] at h1
    | cons y ys =>
      cases c with
      | nil => simp [charsLt] at h2
      | cons z zs =>
        simp only [charsLt] at h1 h2 ⊢
        by_cases hxy : x = y
        · subst hxy
          simp only [if_pos rfl] at h1
          by_cases hyz : x = z
          · subst hyz
            simp only [if_pos rfl] at h2 ⊢
            exact ih h1 h2
          · simp only [if_neg hyz] at h2 ⊢
            exact h2
        · simp only [if_neg hxy, decide_eq_true_eq] at h1
          by_cases hyz : y = z
          · subst hyz
            have hxz : ¬ x = y := hxy
            simp only [if_neg hxz, decide_eq_true_eq]
            exact h1
          · simp only [if_neg hyz, decide_eq_true_eq] at h2
            by_cases hxz : x = z
            · subst hxz
              omega
            · simp only [if_neg hxz, decide_eq_true_eq]
              omega

lemma charsLt_eq_of_not_lt : ∀ {a b : List Char},
    charsLt a b = false → charsLt b a = false → a = b := by
  intro a
  induction a with
  | nil =>
    intro b h1 _
    cases b with
    | nil => rfl
    | cons y ys => simp [charsLt] at h1
  | cons x xs ih =>
    intro b h1 h2
    cases b with
    | nil => simp [charsLt] at h2
    | cons y ys =>
      simp only [charsLt] at h1 h2
      by_cases hxy : x = y
      · subst hxy
        simp only [if_pos rfl] at h1 h2
        rw [ih h1 h2]
      · have hyx : ¬ y = x := fun e => hxy e.symm
        simp only [if_neg hxy, decide_eq_false_iff_not] at h1
        simp only [if_neg hyx, decide_eq_false_iff_not] at h2
        have hn : x.toNat = y.toNat := by omega
        exact absurd (Char.ext (UInt32.ext hn)) hxy

lemma strLtB_asymm {a b : String} (h : strLtB a b = true) : strLtB b a = false :=
  charsLt_asymm h

lemma strLtB_trans {a b c : String} (h1 : strLtB a b = true) (h2 : strLtB b c = true) :
    strLtB a c = true :=
  charsLt_trans h1 h2

lemma strLtB_eq_of_not_lt {a b : String} (h1 : strLtB a b = false) (h2 : strLtB b a = false) :
    a = b :=
  String.ext (charsLt_eq_of_not_lt h1 h2)

lemma partsLt_asymm : ∀ {a b : List String}, partsLt a b = true → partsLt b a = false := by
  intro a
  induction a with
  | nil =>
    intro b h
    cases b with
    | nil => simp [partsLt] at h
    | cons y ys => simp [partsLt]
  | cons x xs ih =>
    intro b h
    cases b with
    | nil => simp [partsLt] at h
    | cons y ys =>
      simp only [partsLt] at h ⊢
      by_cases hxy : x = y
      · subst hxy
        simp only [if_pos rfl] at h ⊢
        exact ih h
      · have hyx : ¬ y = x := fun e => hxy e.symm
        simp only [if_neg hxy] at h
        simp only [if_neg hyx]
        exact strLtB_asymm h

lemma partsLt_trans : ∀ {a b c : List String},
    partsLt a b = true → partsLt b c = true → partsLt a c = true := by
  intro a
  induction a with
  | nil =>
    intro b c h1 h2
    cases b with
    | nil => simp [partsLt] at h1
    | cons y ys =>
      cases c with
      | nil => simp [partsLt] at h2
      | cons z zs => simp [partsLt]
  | cons x xs ih =>
    intro b c h1 h2
    cases b with
    | nil => simp [partsLt] at h1
    | cons y ys =>
      cases c with
      | nil => simp [partsLt] at h2
      | cons z zs =>
        simp only [partsLt] at h1 h2 ⊢
        by_cases hxy : x = y
        · subst hxy
          simp only [if_pos rfl] at h1
          by_cases hyz : x = z
          · subst hyz
            simp only [if_pos rfl] at h2 ⊢
            exact ih h1 h2
          · simp only [if_neg hyz] at h2 ⊢
            exact h2
        · simp only [if_neg hxy] at h1
          by_cases hyz : y = z
          · subst hyz
            simp only [if_neg hxy]
            exact h1
          · simp only [if_neg hyz] at h2
            by_cases hxz : x = z
            · subst hxz
              have := strLtB_asymm h1
              rw [this] at h2
              exact absurd h2 (by simp)
            · simp only [if_neg hxz]
              exact strLtB_trans h1 h2

lemma partsLt_eq_of_not_lt : ∀ {a b : List String},
    partsLt a b = false → partsLt b a = false → a = b := by
  intro a
  induction a with
  | nil =>
    intro b h1 _
    cases b with
    | nil => rfl
    | cons y ys => simp [partsLt] at h1
  | cons x xs ih =>
    intro b h1 h2
    cases b with
    | nil => simp [partsLt] at h2
    | cons y ys =>
      simp only [partsLt] at h1 h2
      by_cases hxy : x = y
      · subst hxy
        simp only [if_pos rfl] at h1 h2
        rw [ih h1 h2]
      · have hyx : ¬ y = x := fun e => hxy e.symm
        simp only [if_neg hxy] at h1
        simp only [if_neg hyx] at h2
        exact absurd (strLtB_eq_of_not_lt h1 h2) hxy

/-- Sorting order used by `sorted()` over paths: `a` precedes `b` when `b` is
not strictly below `a`. -/
def pathLe (a b : RelPath) : Prop := partsLt b a = false

instance : DecidableRel pathLe := fun a b =>
  inferInstanceAs (Decidable (partsLt b a = false))

instance : IsTotal RelPath pathLe where
  total a b := by
    cases h : partsLt b a with
    | false => exact Or.inl h
    | true => exact Or.inr (partsLt_asymm h)

instance : IsTrans RelPath pathLe where
  trans a b c h1 h2 := by
    unfold pathLe at h1 h2 ⊢
    cases hbc : partsLt b c with
    | false => rw [partsLt_eq_of_not_lt h2 hbc]; exact h1
    | true =>
      cases hca : partsLt c a with
      | false => rfl
      | true =>
        have := partsLt_trans hbc hca
        rw [h1] at this
        exact absurd this (by simp)

/-- Embedding of Python `sorted` over discovered page paths. -/
def sortPaths (l : List RelPath) : List RelPath := List.insertionSort pathLe l

/-- Matching a `*.html` glob against a file name: `fnmatch` with pattern
`*.html` accepts exactly the names ending in `.html`. -/
def isHtmlName (name : String) : Bool :=
  List.isPrefixOf ".html".data.reverse name.data.reverse

/-- Position of the last dot of a name, as the split `(before, after)` around
it, or `none` when the name has no dot (`str.rfind` in `PurePath.suffix`). -/
def splitLastDot : List Char → Option (List Char × List Char)
  | [] => none
  | c :: rest =>
    match splitLastDot rest with
    | some (pre, post) => some (c :: pre, post)
    | none => if c = '.' then some ([], rest) else none

/-- Embedding of `PurePath.with_suffix("")` on a single name: the suffix is
dropped only when the last dot is neither the first nor the last character. -/
def stripExt (name : String) : String :=
  match splitLastDot name.data with
  | some (pre, post) => if pre ≠ [] ∧ post ≠ [] then String.mk pre else name
  | none => name

/-- Apply a function to the last segment of a path, as `with_suffix` acts on
the final component only. -/
def mapLast (f : String → String) : RelPath → RelPath
  | [] => []
  | [x] => [f x]
  | x :: xs => x :: mapLast f xs

/-- Embedding of `page_slug` from `build.py`: segments of the path with the
extension stripped, joined with a hyphen. -/
def page_slug (rel : RelPath) : String :=
  String.intercalate "-" (mapLast stripExt rel)

/-- One step of CPython `str.title()` over ASCII: a letter is uppercased when
it follows a non-letter and lowercased otherwise. The flag records whether the
previous character was cased. -/
def titleChars : Bool → List Char → List Char
  | _, [] => []
  | prevCased, c :: rest =>
    if c.isAlpha then
      (if prevCased then c.toLower else c.toUpper) :: titleChars true rest
    else c :: titleChars false rest

/-- CPython `str.title()` restricted to ASCII letters. -/
def pyTitle (s : String) : String := String.mk (titleChars false s.data)

/-- Embedding of `page_label` from `build.py`: hyphens replaced by spaces,
then title-cased. -/
def page_label (slug : String) : String :=
  pyTitle (String.mk (slug.data.map (fun c => if c = '-' then ' ' else c)))

/-- Python `\s` over ASCII. -/
def pySpace (c : Char) : Bool :=
  c == ' ' || c == '\t' || c == '\n' || c == '\r' || c == '\x0b' || c == '\x0c'

/-- CPython `str.strip()`: whitespace removed from both ends. -/
def pyStrip (s : String) : String :=
  String.mk ((s.data.dropWhile pySpace).reverse.dropWhile pySpace).reverse

/-- Match a literal character sequence, returning the rest of the input. -/
def matchLit : List Char → List Char → Option (List Char)
  | [], cs => some cs
  | _ :: _, [] => none
  | l :: ls, c :: cs => if c = l then matchLit ls cs else none

/-- Match `\s+` (at least one whitespace character, then as many as follow). -/
def matchWSPlus : List Char → Option (List Char)
  | [] => none
  | c :: cs => if pySpace c then some (cs.dropWhile pySpace) else none

/-- Match the opening tag `\x7b%\s*block\s+title\s*%\x7d` of the title-block
pattern in `extract_title_label`. -/
def matchOpen (cs : List Char) : Option (List Char) := do
  let cs1 ← matchLit ['\x7b', '%'] cs
  let cs2 := cs1.dropWhile pySpace
  let cs3 ← matchLit ['b', 'l', 'o', 'c', 'k'] cs2
  let cs4 ← matchWSPlus cs3
  let cs5 ← matchLit ['t', 'i', 't', 'l', 'e'] cs4
  let cs6 := cs5.dropWhile pySpace
  matchLit ['%', '\x7d'] cs6

/-- Match the closing tag `\x7b%\s*endblock\s*%\x7d`. -/
def matchEnd (cs : List Char) : Option (List Char) := do
  let cs1 ← matchLit ['\x7b', '%'] cs
  let cs2 := cs1.dropWhile pySpace
  let cs3 ← matchLit ['e', 'n', 'd', 'b', 'l', 'o', 'c', 'k'] cs2
  let cs4 := cs3.dropWhile pySpace
  matchLit ['%', '\x7d'] cs4

/-- Lazy group `(.*?)` before the closing tag: the shortest run of characters
(newlines included, as under `re.DOTALL`) after which the closing tag matches. -/
def findGroup : List Char → Option (List Char)
  | [] => if (matchEnd []).isSome then some [] else none
  | c :: rest =>
    if (matchEnd (c :: rest)).isSome then some []
    else (findGroup rest).map (fun g => c :: g)

/-- Leftmost match of the whole title-block pattern, as `re.search`: the
earliest position where the opening tag matches and a closing tag follows,
with the lazy group in between. -/
def findBlock : List Char → Option (List Char)
  | [] => none
  | c :: rest =>
    match matchOpen (c :: rest) with
    | some afterOpen =>
      match findGroup afterOpen with
      | some g => some g
      | none => findBlock rest
    | none => findBlock rest

/-- Embedding of the parsing part of `extract_title_label` from `build.py`,
acting on the page's source text: locate the title block, strip it, reject an
empty title, and keep the stripped text before the first dash. -/
def extract_title_label (content : String) : Option String :=
  match findBlock content.data with
  | none => none
  | some g =>
    let t := pyStrip (String.mk g)
    if t = "" then none
    else some (pyStrip (String.mk (t.data.takeWhile (fun c => !(c = '-')))))

/-- Read failure of `Path.read_text` (unreadable file or undecodable bytes). -/
inductive ReadError where
  | unreadable
deriving DecidableEq

/-- Embedding of the full `extract_title_label` including its call to
`page_path.read_text()`: the read either yields the content or raises, and
the function body has no handler for a raised read error. -/
def extract_title_label_from_read (r : Except ReadError String) :
    Except ReadError (Option String) :=
  match r with
  | Except.error e => Except.error e
  | Except.ok content => Except.ok (extract_title_label content)

/-- The `NAV_ICONS` table of `build.py`. -/
def NAV_ICONS : List (String × String) :=
  [("about", "👤"), ("projects", "🛠️"), ("fun", "🎮")]

/-- Navigation label of a page as computed in `render_pages`: the extracted
title if truthy (Python `or` discards both `None` and the empty string), else
the default label; then the icon prefix when the slug is in `NAV_ICONS`. -/
def nav_label (content : String) (slug : String) : String :=
  let label :=
    match extract_title_label content with
    | some t => if t = "" then page_label slug else t
    | none => page_label slug
  let icon := (List.lookup slug NAV_ICONS).getD ""
  if icon = "" then label else icon ++ " " ++ label

/-- A navigation entry, as the dict appended to `nav_links`. -/
structure NavLink where
  id : String
  label : String
  href : String
deriving DecidableEq

/-- Guard of the `continue` in the `render_pages` navigation loop. -/
def nonIndex (p : RelPath) : Bool := !(fileName p = "index.html")

/-- Embedding of the navigation-building loop of `render_pages`: every
discovered page except those named `index.html` contributes one link, in
discovery order. `pages` carries each page's source text for the title
extraction. -/
def build_nav (pages : List (RelPath × String)) (discovered : List RelPath) :
    List NavLink :=
  discovered.filterMap (fun p =>
    let slug := page_slug p
    if fileName p = "index.html" then none
    else some
      { id := slug
        label := nav_label ((List.lookup p pages).getD "") slug
        href := pathStr p })

/-- Failures that abort the build: `FileNotFoundError` raised by
`discover_pages` (the *MissingInputError* of the design) and the
`RuntimeError` raised by `render_pages` on an empty discovery (the
*EmptyInputError*). -/
inductive BuildError where
  | missingInput
  | emptyInput
deriving DecidableEq

/-- Shared render context built in `render_pages`, merged with the per-page
`active_nav`. -/
structure Context where
  nav_links : List NavLink
  site_name : String
  brand_icon : String
  home_href : String
  static_css_path : String
  current_year : Int
  active_nav : String
deriving DecidableEq

/-- The Jinja engine is an external collaborator: any deterministic function
from the template environment (shared templates and pages, as the loader
search path), the requested template path and the context to the rendered
text. -/
abbrev RenderFn :=
  List (RelPath × String) → List (RelPath × String) → RelPath → Context → String

/-- The parts of the filesystem the builder touches, each subtree an
association list from relative path to content; `none` for the optional
roots means the directory does not exist. -/
structure FS where
  pagesRoot : Option (List (RelPath × String))
  templatesRoot : List (RelPath × String)
  staticRoot : Option (List (RelPath × String))
  buildDir : Option (List (RelPath × String))
deriving DecidableEq

/-- Write one file into a directory listing, overwriting an existing entry of
the same path (parent directories are implicit in the path representation). -/
def fsWrite (d : List (RelPath × String)) (p : RelPath) (c : String) :
    List (RelPath × String) :=
  match d with
  | [] => [(p, c)]
  | (q, c') :: rest => if q = p then (q, c) :: rest else (q, c') :: fsWrite rest p c

/-- Embedding of `clean_build_directory` from `build.py`: `rmtree` the output
directory when it exists, then `mkdir` it again. -/
def clean_build_directory (fs : FS) : FS :=
  let fs1 :=
    match fs.buildDir with
    | some _ => { fs with buildDir := none }
    | none => fs
  { fs1 with buildDir := some [] }

/-- Embedding of `copy_static_files` from `build.py`: no-op when the static
root is absent, else copy its tree under `build/static`, overwriting existing
destination files (`dirs_exist_ok=True`). -/
def copy_static_files (fs : FS) : FS :=
  match fs.staticRoot with
  | none => fs
  | some files =>
    { fs with
        buildDir :=
          some (files.foldl (fun d pc => fsWrite d ("static" :: pc.1) pc.2)
            (fs.buildDir.getD [])) }

/-- Embedding of `discover_pages` from `build.py`: raise when the pages root
is missing, else the sorted list of files matching `*.html` under it. -/
def discover_pages (fs : FS) : Except BuildError (List RelPath) :=
  match fs.pagesRoot with
  | none => Except.error BuildError.missingInput
  | some pl =>
    Except.ok (sortPaths ((pl.map Prod.fst).filter (fun p => isHtmlName (fileName p))))

/-- The per-page render context of `render_pages`: the shared dict plus
`active_nav` set to the page's slug. -/
def pageContext (nav : List NavLink) (year : Int) (slug : String) : Context :=
  { nav_links := nav
    site_name := "Home"
    brand_icon := "🏠"
    home_href := "index.html"
    static_css_path := "static/styles.css"
    current_year := year
    active_nav := slug }

/-- Embedding of `render_pages` from `build.py`: discover pages, fail on an
empty discovery, build the navigation list, then render and write every page
at its source-relative path. `year` is the `datetime.now().year` observed by
the run. -/
def render_pages (render : RenderFn) (year : Int) (fs : FS) : Except BuildError FS :=
  match discover_pages fs with
  | Except.error e => Except.error e
  | Except.ok discovered =>
    if discovered = [] then Except.error BuildError.emptyInput
    else
      let pages := fs.pagesRoot.getD []
      let nav := build_nav pages discovered
      Except.ok
        { fs with
            buildDir :=
              some (discovered.foldl
                (fun d p =>
                  fsWrite d p
                    (render fs.templatesRoot pages p
                      (pageContext nav year (page_slug p))))
                (fs.buildDir.getD [])) }

/-- Embedding of `main` from `build.py`: clean the output directory, copy the
static tree, render all pages. -/
def build_main (render : RenderFn) (year : Int) (fs : FS) : Except BuildError FS :=
  render_pages render year (copy_static_files (clean_build_directory fs))

/-- Build-directory contents after `copy_static_files` runs on the freshly
cleaned (empty) output directory. -/
def staticOutputs (staticRoot : Option (List (RelPath × String))) :
    List (RelPath × String) :=
  match staticRoot with
  | none => []
  | some files => files.foldl (fun d pc => fsWrite d ("static" :: pc.1) pc.2) []

/-- Full build-directory contents of a successful build, as a function of the
input subtrees alone. -/
def buildOutputs (render : RenderFn) (year : Int) (pl : List (RelPath × String))
    (tmpl : List (RelPath × String)) (staticRoot : Option (List (RelPath × String))) :
    List (RelPath × String) :=
  let discovered := sortPaths ((pl.map Prod.fst).filter (fun p => isHtmlName (fileName p)))
  let nav := build_nav pl discovered
  discovered.foldl
    (fun d p =>
      fsWrite d p (render tmpl pl p (pageContext nav year (page_slug p))))
    (staticOutputs staticRoot)

lemma clean_build_directory_eq (fs : FS) :
    clean_build_directory fs = { fs with buildDir := some [] } := by
  cases fs with
  | mk p t s b => cases b <;> rfl

/-- Characterization of a whole build run: it fails exactly on a missing pages
root or an empty discovery, and otherwise replaces the output directory with
contents computed from the input subtrees alone. -/
lemma build_main_eq (render : RenderFn) (year : Int) (fs : FS) :
    build_main render year fs =
      match fs.pagesRoot with
      | none => Except.error BuildError.missingInput
      | some pl =>
        if sortPaths ((pl.map Prod.fst).filter (fun p => isHtmlName (fileName p))) = []
        then Except.error BuildError.emptyInput
        else Except.ok
          { fs with
              buildDir :=
                some (buildOutputs render year pl fs.templatesRoot fs.staticRoot) } := by
  cases fs with
  | mk p t s b =>
    rw [build_main, clean_build_directory_eq]
    cases p with
    | none => cases s <;> rfl
    | some pl =>
      cases s with
      | none =>
        simp only [copy_static_files, render_pages, discover_pages, buildOutputs,
          staticOutputs]
        split <;> rfl
      | some files =>
        simp only [copy_static_files, render_pages, discover_pages, buildOutputs,
          staticOutputs]
        split <;> rfl

/-- A watch snapshot, the dict built by `snapshot()` in `watch_build.py`:
file path to modification time (keys are unique, as in any dict). -/
abbrev Snapshot := List (String × Int)

/-- Python dict equality between two snapshots: the same key set and the same
value at every key. This is structural equality of the mappings, independent
of entry order. -/
def snapEq (a b : Snapshot) : Bool :=
  a.all (fun kv => List.lookup kv.1 b == some kv.2) &&
  b.all (fun kv => List.lookup kv.1 a == some kv.2)

/-- Touch a watched file: its snapshot entry takes the new modification
time. -/
def touch (s : Snapshot) (f : String) (t : Int) : Snapshot :=
  s.map (fun kv => if kv.1 = f then (kv.1, t) else kv)

/-- One iteration of the watcher's poll loop, from `main` of
`watch_build.py`: compare the new snapshot to `prev` with dict equality;
on a difference, update `prev` and trigger a build. Returns the trigger
decision and the next `prev`. -/
def watchStep (prev cur : Snapshot) : Bool × Snapshot :=
  if snapEq cur prev then (false, prev) else (true, cur)

/-- The poll loop run over a sequence of observed snapshots, starting from the
initial snapshot taken before the loop: one trigger decision per poll. -/
def watchRun (prev : Snapshot) : List Snapshot → List Bool
  | [] => []
  | cur :: rest =>
    let st := watchStep prev cur
    st.fst :: watchRun st.snd rest

/-- The poll loop with the exit code each triggered build would return
(`run_build` reports the code and the loop ignores it): `none` when the poll
triggered no build, `some code` when a build ran and exited with `code`. -/
def watchRunE (prev : Snapshot) : List (Snapshot × Int) → List (Option Int)
  | [] => []
  | (cur, code) :: rest =>
    let st := watchStep prev cur
    (if st.fst then some code else none) :: watchRunE st.snd rest

lemma lookup_mem_of_eq_some {s : Snapshot} {k : String} {v : Int}
    (h : List.lookup k s = some v) : (k, v) ∈ s := by
  induction s with
  | nil => simp [List.lookup] at h
  | cons kv rest ih =>
    obtain ⟨k1, v1⟩ := kv
    by_cases he : k = k1
    · subst he
      simp only [List.lookup, beq_self_eq_true] at h
      cases h
      exact List.mem_cons_self _ _
    · have hb : (k == k1) = false := beq_eq_false_iff_ne.mpr he
      simp only [List.lookup, hb] at h
      exact List.mem_cons_of_mem _ (ih h)

lemma snapEq_lookup {a b : Snapshot} (h : snapEq a b = true) {k : String} {v : Int}
    (hk : List.lookup k a = some v) : List.lookup k b = some v := by
  have hmem : (k, v) ∈ a := lookup_mem_of_eq_some hk
  rw [snapEq, Bool.and_eq_true] at h
  obtain ⟨h1, _⟩ := h
  rw [List.all_eq_true] at h1
  simpa using h1 _ hmem

lemma touch_cons {k : String} {v : Int} {rest : Snapshot} {f : String} {t : Int} :
    touch ((k, v) :: rest) f t = (if k = f then (k, t) else (k, v)) :: touch rest f t := rfl

lemma lookup_touch {s : Snapshot} {f : String} {told : Int}
    (h : List.lookup f s = some told) (t : Int) :
    List.lookup f (touch s f t) = some t := by
  induction s with
  | nil => simp [List.lookup] at h
  | cons kv rest ih =>
    obtain ⟨k1, v1⟩ := kv
    by_cases he : f = k1
    · subst he
      rw [touch_cons, if_pos rfl]
      simp only [List.lookup, beq_self_eq_true]
    · have hb : (f == k1) = false := beq_eq_false_iff_ne.mpr he
      have hne : ¬ k1 = f := fun e => he e.symm
      simp only [List.lookup, hb] at h
      rw [touch_cons, if_neg hne]
      simp only [List.lookup, hb]
      exact ih h

lemma snapEq_touch_false {s : Snapshot} {f : String} {t told : Int}
    (hlk : List.lookup f s = some told) (hne : t ≠ told) :
    snapEq (touch s f t) s = false := by
  cases h : snapEq (touch s f t) s with
  | false => rfl
  | true =>
    have := snapEq_lookup h (lookup_touch hlk t)
    rw [this] at hlk
    cases hlk
    exact absurd rfl hne

lemma watchRun_no_trigger {prev : Snapshot} {polls : List Snapshot}
    (h : ∀ r ∈ polls, snapEq r prev = true) :
    (watchRun prev polls).count true = 0 := by
  induction polls with
  | nil => rfl
  | cons cur rest ih =>
    have hc := h cur (List.mem_cons_self _ _)
    simp only [watchRun, watchStep, hc, if_pos]
    rw [List.count_cons]
    have := ih (fun r hr => h r (List.mem_cons_of_mem _ hr))
    simp_all

lemma build_main_none (render : RenderFn) (year : Int) (t : List (RelPath × String))
    (s b : Option (List (RelPath × String))) :
    build_main render year ⟨none, t, s, b⟩ = Except.error BuildError.missingInput := by
  rw [build_main_eq]

lemma build_main_some (render : RenderFn) (year : Int) (pl t : List (RelPath × String))
    (s b : Option (List (RelPath × String))) :
    build_main render year ⟨some pl, t, s, b⟩ =
      if sortPaths ((pl.map Prod.fst).filter (fun p => isHtmlName (fileName p))) = []
      then Except.error BuildError.emptyInput
      else Except.ok ⟨some pl, t, s, some (buildOutputs render year pl t s)⟩ := by
  rw [build_main_eq]

/-- Claim C4: page discovery fails with the MissingInputError-class failure
(`FileNotFoundError`) exactly when the pages root does not exist, and the
build fails with the EmptyInputError-class failure (`RuntimeError`) exactly
when the pages root exists but no page-template file is found; in either case
the run produces an error and no output filesystem. -/
theorem build_error_conditions (render : RenderFn) (year : Int) (fs : FS) :
    (build_main render year fs = Except.error BuildError.missingInput ↔
      fs.pagesRoot = none)
    ∧ (build_main render year fs = Except.error BuildError.emptyInput ↔
      ∃ pl, fs.pagesRoot = some pl ∧
        (pl.map Prod.fst).filter (fun p => isHtmlName (fileName p)) = []) := by
  obtain ⟨p, t, s, b⟩ := fs
  cases p with
  | none =>
    rw [build_main_none]
    simp
  | some pl =>
    rw [build_main_some]
    by_cases he :
        sortPaths ((pl.map Prod.fst).filter (fun p => isHtmlName (fileName p))) = []
    · have hperm :
          List.Perm (sortPaths ((pl.map Prod.fst).filter (fun p => isHtmlName (fileName p))))
            ((pl.map Prod.fst).filter (fun p => isHtmlName (fileName p))) :=
        List.perm_insertionSort pathLe _
      rw [he] at hperm
      have hl := hperm.symm.eq_nil
      rw [if_pos he]
      refine ⟨by simp, ?_⟩
      constructor
      · intro _
        exact ⟨pl, rfl, hl⟩
      · intro _
        rfl
    · have hl : ¬ (pl.map Prod.fst).filter (fun p => isHtmlName (fileName p)) = [] := by
        intro hl
        apply he
        rw [sortPaths, hl]
        rfl
      rw [if_neg he]
      refine ⟨by simp, ?_⟩
      constructor
      · intro hcon
        exact absurd hcon (by simp)
      · rintro ⟨pl2, hpl2, hfil⟩
        have hee : pl = pl2 := by simpa using hpl2
        subst hee
        exact absurd hfil hl

/-- Claim C5: a second build run on the filesystem produced by a successful
build run, with the input subtrees unchanged, reproduces exactly the same
filesystem — in particular byte-identical output-directory contents. -/
theorem build_idempotent (render : RenderFn) (year : Int) (fs fs1 : FS)
    (h : build_main render year fs = Except.ok fs1) :
    build_main render year fs1 = Except.ok fs1 := by
  obtain ⟨p, t, s, b⟩ := fs
  cases p with
  | none =>
    rw [build_main_none] at h
    simp at h
  | some pl =>
    rw [build_main_some] at h
    by_cases he :
        sortPaths ((pl.map Prod.fst).filter (fun p => isHtmlName (fileName p))) = []
    · rw [if_pos he] at h
      simp at h
    · rw [if_neg he] at h
      obtain rfl : fs1 = ⟨some pl, t, s, some (buildOutputs render year pl t s)⟩ :=
        (Except.ok.inj h).symm
      rw [build_main_some, if_neg he]

lemma fsWrite_keys : ∀ {d : List (RelPath × String)} {q p : RelPath} {c : String},
    p ∈ (fsWrite d q c).map Prod.fst → p = q ∨ p ∈ d.map Prod.fst := by
  intro d
  induction d with
  | nil =>
    intro q p c h
    simp [fsWrite] at h
    exact Or.inl h
  | cons kv rest ih =>
    intro q p c h
    obtain ⟨k1, c1⟩ := kv
    rw [fsWrite] at h
    by_cases he : k1 = q
    · rw [if_pos he] at h
      simp only [List.map_cons, List.mem_cons] at h
      rcases h with h | h
      · exact Or.inl (h.trans he)
      · exact Or.inr (by simp [h])
    · rw [if_neg he] at h
      simp only [List.map_cons, List.mem_cons] at h
      rcases h with h | h
      · exact Or.inr (by simp [h])
      · rcases ih h with h2 | h2
        · exact Or.inl h2
        · exact Or.inr (by simp [h2])

lemma foldl_fsWrite_keys {α : Type} (g : α → RelPath) (f : α → String) :
    ∀ (l : List α) (d : List (RelPath × String)) (p : RelPath),
      p ∈ ((l.foldl (fun d x => fsWrite d (g x) (f x)) d).map Prod.fst) →
      p ∈ d.map Prod.fst ∨ p ∈ l.map g := by
  intro l
  induction l with
  | nil =>
    intro d p h
    exact Or.inl h
  | cons x rest ih =>
    intro d p h
    rw [List.foldl_cons] at h
    rcases ih _ p h with h2 | h2
    · rcases fsWrite_keys h2 with h3 | h3
      · exact Or.inr (by simp [h3])
      · exact Or.inl h3
    · exact Or.inr (by simp [h2])

/-- The paths a successful build generates inside the output directory: the
copied static tree under `static/` and one rendered file per discovered
page. -/
def outputKeys (fs : FS) : List RelPath :=
  (match fs.staticRoot with
    | none => []
    | some files => files.map (fun pc => "static" :: pc.1))
  ++ (match fs.pagesRoot with
    | none => []
    | some pl =>
      sortPaths ((pl.map Prod.fst).filter (fun p => isHtmlName (fileName p))))

lemma staticOutputs_keys {sr : Option (List (RelPath × String))} {p : RelPath}
    (h : p ∈ (staticOutputs sr).map Prod.fst) :
    p ∈ (match sr with
      | none => ([] : List RelPath)
      | some files => files.map (fun pc : RelPath × String => "static" :: pc.1)) := by
  cases sr with
  | none => simp [staticOutputs] at h
  | some files =>
    rw [staticOutputs] at h
    rcases foldl_fsWrite_keys (fun pc => "static" :: pc.1) (fun pc => pc.2)
        files [] p h with h2 | h2
    · simp at h2
    · exact h2

lemma buildOutputs_keys {render : RenderFn} {year : Int}
    {pl t : List (RelPath × String)} {s : Option (List (RelPath × String))}
    {p : RelPath} (h : p ∈ (buildOutputs render year pl t s).map Prod.fst) :
    p ∈ outputKeys ⟨some pl, t, s, none⟩ := by
  rw [buildOutputs] at h
  rcases foldl_fsWrite_keys (fun q => q)
      (fun q => render t pl q
        (pageContext
          (build_nav pl
            (sortPaths ((pl.map Prod.fst).filter (fun q2 => isHtmlName (fileName q2)))))
          year (page_slug q)))
      (sortPaths ((pl.map Prod.fst).filter (fun q2 => isHtmlName (fileName q2))))
      (staticOutputs s) p h with h2 | h2
  · have h3 := staticOutputs_keys h2
    rw [outputKeys]
    apply List.mem_append_left
    exact h3
  · rw [outputKeys]
    apply List.mem_append_right
    simpa using h2

/-- Claim C8: the clean step leaves the output directory existing and empty
for any prior state, removing a pre-existing directory whole, and is safe
when none exists; it is idempotent; a build's result does not depend on the
output directory's prior contents; and every path present in the output
directory after a successful build is one the build itself generated — so
any stray file from before the build is absent afterwards. -/
theorem build_destructive_clean (render : RenderFn) (year : Int) (fs fs1 : FS)
    (bd : List (RelPath × String)) :
    ((clean_build_directory fs).buildDir = some [])
    ∧ (clean_build_directory (clean_build_directory fs) = clean_build_directory fs)
    ∧ (∀ d1 d2, build_main render year { fs with buildDir := d1 }
        = build_main render year { fs with buildDir := d2 })
    ∧ (build_main render year fs = Except.ok fs1 → fs1.buildDir = some bd →
        ∀ p ∈ bd.map Prod.fst, p ∈ outputKeys fs) := by
  obtain ⟨pp, t, s, b⟩ := fs
  refine ⟨by rw [clean_build_directory_eq], ?_, ?_, ?_⟩
  · rw [clean_build_directory_eq, clean_build_directory_eq]
  · intro d1 d2
    cases pp with
    | none => rw [build_main_none, build_main_none]
    | some pl => rw [build_main_some, build_main_some]
  · intro h hbd p hp
    cases pp with
    | none =>
      rw [build_main_none] at h
      simp at h
    | some pl =>
      rw [build_main_some] at h
      by_cases he :
          sortPaths ((pl.map Prod.fst).filter (fun q => isHtmlName (fileName q))) = []
      · rw [if_pos he] at h
        simp at h
      · rw [if_neg he] at h
        obtain rfl : fs1 = ⟨some pl, t, s, some (buildOutputs render year pl t s)⟩ :=
          (Except.ok.inj h).symm
        obtain rfl : bd = buildOutputs render year pl t s := by
          simpa using hbd.symm
        exact buildOutputs_keys hp

/-- The discovery result of a build whose pages root holds `pages`. -/
def discoveredOf (pages : List (RelPath × String)) : List RelPath :=
  sortPaths ((pages.map Prod.fst).filter (fun p => isHtmlName (fileName p)))

lemma build_nav_href (pages : List (RelPath × String)) :
    ∀ d : List RelPath,
      (build_nav pages d).map NavLink.href = (d.filter nonIndex).map pathStr := by
  intro d
  induction d with
  | nil => rfl
  | cons p rest ih =>
    rw [build_nav] at ih ⊢
    by_cases h : fileName p = "index.html"
    · simp [List.filterMap_cons, List.filter_cons, h, nonIndex, ih]
    · simp [List.filterMap_cons, List.filter_cons, h, nonIndex, ih]

lemma count_eq_one_of_nodup_mem :
    ∀ {l : List RelPath} {p : RelPath}, l.Nodup → p ∈ l → l.count p = 1 := by
  intro l
  induction l with
  | nil =>
    intro p _ hm
    cases hm
  | cons q rest ih =>
    intro p hnd hm
    rw [List.count_cons]
    rcases List.mem_cons.mp hm with rfl | hm2
    · have hpn : p ∉ rest := (List.nodup_cons.mp hnd).1
      have h0 : rest.count p = 0 := List.count_eq_zero.mpr hpn
      simp [h0]
    · have hne : p ≠ q := by
        intro he
        subst he
        exact (List.nodup_cons.mp hnd).1 hm2
      rw [ih (List.nodup_cons.mp hnd).2 hm2]
      simp only [Nat.add_right_eq_self, ite_eq_right_iff, beq_iff_eq]
      intro h2
      exact absurd h2.symm hne

/-- Claim C1 (amended): for every pages root, the hrefs of the navigation
list are exactly the discovered pages whose file name is not `index.html`,
in discovery order; the discovery order is lexicographically sorted; and
under distinct page paths every non-`index.html` page occurs exactly once in
the excluded-filtered discovery while every `index.html`-named page occurs
zero times. -/
theorem nav_list_correct (pages : List (RelPath × String)) :
    ((build_nav pages (discoveredOf pages)).map NavLink.href
        = ((discoveredOf pages).filter nonIndex).map pathStr)
    ∧ List.Sorted pathLe (discoveredOf pages)
    ∧ ((pages.map Prod.fst).Nodup →
        ∀ p ∈ discoveredOf pages,
          (nonIndex p = true → ((discoveredOf pages).filter nonIndex).count p = 1)
          ∧ (nonIndex p = false → ((discoveredOf pages).filter nonIndex).count p = 0)) := by
  refine ⟨build_nav_href pages _, List.sorted_insertionSort pathLe _, ?_⟩
  intro hnd p hp
  have hfildup : ((pages.map Prod.fst).filter (fun q => isHtmlName (fileName q))).Nodup :=
    hnd.filter _
  have hperm :
      List.Perm (discoveredOf pages)
        ((pages.map Prod.fst).filter (fun q => isHtmlName (fileName q))) :=
    List.perm_insertionSort pathLe _
  have hsortnd : (discoveredOf pages).Nodup := hperm.nodup_iff.mpr hfildup
  constructor
  · intro hni
    exact count_eq_one_of_nodup_mem (hsortnd.filter nonIndex)
      (List.mem_filter.mpr ⟨hp, hni⟩)
  · intro hni
    rw [List.count_eq_zero]
    intro hmem
    have := (List.mem_filter.mp hmem).2
    rw [hni] at this
    exact absurd this (by simp)

/-- The pages-root content of the C1 counterexample: a root `index.html`, a
plain page, and a nested page that is itself named `index.html`. -/
def cexPages : List (RelPath × String) :=
  [(["index.html"], ""), (["about.html"], ""), (["blog", "index.html"], "")]

/-- Filesystem for the C1 counterexample. -/
def cexFS : FS := ⟨some cexPages, [], none, none⟩

/-- Modelled from the spec: the navigation membership Claim C1 asserts — the
produced list excludes exactly the entry-point page, the single `index.html`
at the pages root, and keeps every other discovered page. Stated only for
comparison against `build_nav`. -/
def navPathsClaimed (discovered : List RelPath) : List String :=
  (discovered.filter (fun p => !(p = ["index.html"] : Bool))).map pathStr

/-- Counterexample to Claim C1 as stated: with a nested page
`blog/index.html`, the builder's navigation list drops that page as well,
while excluding exactly the entry-point page would keep it. -/
theorem nav_entrypoint_cex :
    discover_pages cexFS
      = Except.ok [["about.html"], ["blog", "index.html"], ["index.html"]]
    ∧ (build_nav cexPages [["about.html"], ["blog", "index.html"], ["index.html"]]).map
        NavLink.href = ["about.html"]
    ∧ navPathsClaimed [["about.html"], ["blog", "index.html"], ["index.html"]]
        = ["about.html", "blog/index.html"]
    ∧ (build_nav cexPages [["about.html"], ["blog", "index.html"], ["index.html"]]).map
        NavLink.href
      ≠ navPathsClaimed [["about.html"], ["blog", "index.html"], ["index.html"]] := by
  refine ⟨by rfl, by decide, by decide, by decide⟩

/-- Witness for `nav_list_correct` at the concrete counterexample pages
root. -/
theorem nav_list_correct_witness :
    ((discoveredOf cexPages).filter nonIndex).count ["about.html"] = 1 :=
  ((nav_list_correct cexPages).2.2 (by decide) ["about.html"] (by decide)).1 (by decide)

lemma mapLast_append (f : String → String) :
    ∀ (ds : List String) (n : String), mapLast f (ds ++ [n]) = ds ++ [f n] := by
  intro ds
  induction ds with
  | nil => intro n; rfl
  | cons x xs ih =>
    intro n
    cases xs with
    | nil => rfl
    | cons y ys =>
      show x :: mapLast f ((y :: ys) ++ [n]) = x :: ((y :: ys) ++ [f n])
      rw [ih]

/-- Claim C6: the slug is a pure function of the page's pages-root-relative
path — the extension of the final segment is stripped and the segments are
joined with a hyphen; `blog/post.html` yields `blog-post` and `about.html`
yields `about`. -/
theorem slug_derivation :
    page_slug ["blog", "post.html"] = "blog-post"
    ∧ page_slug ["about.html"] = "about"
    ∧ ∀ (ds : List String) (n : String),
        page_slug (ds ++ [n]) = String.intercalate "-" (ds ++ [stripExt n]) := by
  refine ⟨by decide, by decide, ?_⟩
  intro ds n
  rw [page_slug, mapLast_append]

lemma NAV_ICONS_lookup_ne_empty {slug ic : String}
    (h : List.lookup slug NAV_ICONS = some ic) : ic ≠ "" := by
  rw [NAV_ICONS] at h
  cases h1 : (slug == "about") with
  | true =>
    simp only [List.lookup, h1] at h
    cases h
    decide
  | false =>
    cases h2 : (slug == "projects") with
    | true =>
      simp only [List.lookup, h1, h2] at h
      cases h
      decide
    | false =>
      cases h3 : (slug == "fun") with
      | true =>
        simp only [List.lookup, h1, h2, h3] at h
        cases h
        decide
      | false =>
        simp only [List.lookup, h1, h2, h3] at h
        exact Option.noConfusion h

/-- The page source of the C7 counterexample: its title block is found and
non-empty, but the text before the first dash is empty. -/
def titleCexContent : String :=
  "\x7b% block title %\x7d- Home\x7b% endblock %\x7d"

/-- Counterexample to Claim C7 as stated: a found, non-empty title block
whose pre-dash text is empty does not become the navigation label — Python's
falsy check on the extracted string sends the label back to the slug-derived
default. -/
theorem title_override_cex :
    extract_title_label titleCexContent = some ""
    ∧ nav_label titleCexContent "blog-post" = "Blog Post"
    ∧ nav_label titleCexContent "blog-post" ≠ "" := by
  refine ⟨by decide, by decide, by decide⟩

/-- Claim C7 (amended): when the title block is found and the trimmed text
before its first dash is non-empty, that text is the navigation label,
overriding the slug-derived default (prefixed by the icon when the slug has
one); the default itself maps slug `blog-post` to `Blog Post`; and the block
`About - Home` yields label `About`. -/
theorem title_override (slug content t : String)
    (h : extract_title_label content = some t) (hne : t ≠ "") :
    (List.lookup slug NAV_ICONS = none → nav_label content slug = t)
    ∧ (∀ ic, List.lookup slug NAV_ICONS = some ic →
        nav_label content slug = ic ++ " " ++ t)
    ∧ page_label "blog-post" = "Blog Post"
    ∧ extract_title_label "\x7b% block title %\x7dAbout - Home\x7b% endblock %\x7d"
        = some "About" := by
  refine ⟨?_, ?_, by decide, by decide⟩
  · intro hic
    rw [nav_label, h, hic]
    simp [hne]
  · intro ic hic
    rw [nav_label, h, hic]
    simp [hne, NAV_ICONS_lookup_ne_empty hic]

/-- Witness for `title_override`: the block `About - Home` on a slug without
an icon gives the label `About`. -/
theorem title_override_witness :
    nav_label "\x7b% block title %\x7dAbout - Home\x7b% endblock %\x7d" "blog-post"
      = "About" :=
  (title_override "blog-post"
    "\x7b% block title %\x7dAbout - Home\x7b% endblock %\x7d" "About"
    (by decide) (by decide)).1 (by decide)

/-- Counterexample to Claim C3 as stated: an unreadable page source makes
`extract_title_label` raise the read error past its boundary instead of
yielding no override — `read_text` is called with no handler. -/
theorem title_extraction_cex :
    extract_title_label_from_read (Except.error ReadError.unreadable)
      = Except.error ReadError.unreadable
    ∧ ∀ o : Option String,
        extract_title_label_from_read (Except.error ReadError.unreadable)
          ≠ Except.ok o := by
  refine ⟨rfl, ?_⟩
  intro o h
  exact Except.noConfusion h

/-- Claim C3 (amended): on every readable page source the extraction is
total — it never raises, a missing title block yields no override, and with
no override (and no icon) the navigation label falls back to the
slug-derived default; an unreadable source, by contrast, propagates the read
error. -/
theorem title_extraction_total (content slug : String) :
    (∀ e, extract_title_label_from_read (Except.ok content) ≠ Except.error e)
    ∧ extract_title_label_from_read (Except.ok content)
        = Except.ok (extract_title_label content)
    ∧ (findBlock content.data = none → extract_title_label content = none)
    ∧ (extract_title_label content = none → List.lookup slug NAV_ICONS = none →
        nav_label content slug = page_label slug) := by
  refine ⟨?_, rfl, ?_, ?_⟩
  · intro e h
    exact Except.noConfusion h
  · intro h
    rw [extract_title_label, h]
  · intro h hic
    rw [nav_label, h, hic]
    rfl

/-- Witness for `title_extraction_total`: a source with no title block keeps
the default label. -/
theorem title_extraction_total_witness :
    nav_label "hello" "blog-post" = page_label "blog-post" :=
  (title_extraction_total "hello" "blog-post").2.2.2 (by decide) (by decide)

/-- Claim C2: a poll triggers a rebuild exactly when the new snapshot differs
from the previous one under full structural dict equality; touching one
watched file (a changed modification time) yields exactly one rebuild at the
next poll with none at later unchanged polls, and untouched files yield zero
rebuilds. -/
theorem watcher_change_detection (prev cur init : Snapshot) (f : String) (t told : Int)
    (rest polls : List Snapshot)
    (hlk : List.lookup f init = some told) (hne : t ≠ told)
    (hrest : ∀ r ∈ rest, snapEq r (touch init f t) = true)
    (hpolls : ∀ r ∈ polls, snapEq r init = true) :
    ((watchStep prev cur).fst = true ↔ snapEq cur prev = false)
    ∧ (watchRun init (touch init f t :: rest)).count true = 1
    ∧ (watchRun init polls).count true = 0 := by
  refine ⟨?_, ?_, watchRun_no_trigger hpolls⟩
  · cases hc : snapEq cur prev with
    | false => simp [watchStep, hc]
    | true => simp [watchStep, hc]
  · have hdiff : snapEq (touch init f t) init = false := snapEq_touch_false hlk hne
    rw [watchRun]
    simp only [watchStep, hdiff]
    rw [if_neg (by simp)]
    rw [List.count_cons, watchRun_no_trigger hrest]
    simp

/-- A concrete two-file snapshot used by the watcher witnesses. -/
def demoSnap : Snapshot := [("pages/index.html", 100), ("static/styles.css", 200)]

/-- Witness for `watcher_change_detection`: touching `pages/index.html` in
the demo snapshot triggers exactly one rebuild. -/
theorem watcher_change_detection_witness :
    (watchRun demoSnap [touch demoSnap "pages/index.html" 101]).count true = 1 :=
  (watcher_change_detection [] [] demoSnap "pages/index.html" 101 100 [] []
    (by decide) (by decide)
    (by intro r hr; cases hr)
    (by intro r hr; cases hr)).2.1

lemma watchRunE_length : ∀ (prev : Snapshot) (polls : List (Snapshot × Int)),
    (watchRunE prev polls).length = polls.length := by
  intro prev polls
  induction polls generalizing prev with
  | nil => rfl
  | cons pc rest ih =>
    obtain ⟨cur, code⟩ := pc
    rw [watchRunE]
    simp [ih]

lemma watchRunE_isSome : ∀ (prev : Snapshot) (snaps : List Snapshot) (codes : List Int),
    codes.length = snaps.length →
    (watchRunE prev (snaps.zip codes)).map Option.isSome = watchRun prev snaps := by
  intro prev snaps
  induction snaps generalizing prev with
  | nil =>
    intro codes _
    rfl
  | cons cur rest ih =>
    intro codes h
    cases codes with
    | nil => simp at h
    | cons code crest =>
      rw [List.zip_cons_cons, watchRunE, watchRun]
      have hlen2 : crest.length = rest.length := by simpa using h
      cases hc : snapEq cur prev with
      | false => simp [watchStep, hc, ih _ crest hlen2]
      | true => simp [watchStep, hc, ih _ crest hlen2]

/-- Claim C9: the poll loop survives every build outcome — it emits one entry
per poll whatever the exit codes, the pattern of triggered builds depends on
the snapshots alone and not on any build's exit code, and after a failed
build (exit 1) a later change still triggers the next build. -/
theorem watcher_resilience (init s1 s2 : Snapshot) (c2 : Int)
    (polls : List (Snapshot × Int)) (snaps : List Snapshot) (codes : List Int)
    (hlen : codes.length = snaps.length)
    (h1 : snapEq s1 init = false) (h2 : snapEq s2 s1 = false) :
    (watchRunE init polls).length = polls.length
    ∧ (watchRunE init (snaps.zip codes)).map Option.isSome = watchRun init snaps
    ∧ watchRunE init [(s1, 1), (s2, c2)] = [some 1, some c2] := by
  refine ⟨watchRunE_length init polls, watchRunE_isSome init snaps codes hlen, ?_⟩
  rw [watchRunE, watchRunE]
  simp [watchStep, h1, h2, watchRunE]

/-- Witness for `watcher_resilience`: a failed build on the first change is
followed by a triggered build on the second change. -/
theorem watcher_resilience_witness :
    watchRunE demoSnap
      [(touch demoSnap "pages/index.html" 101, 1),
       (touch demoSnap "pages/index.html" 102, 0)]
      = [some 1, some 0] :=
  (watcher_resilience demoSnap (touch demoSnap "pages/index.html" 101)
    (touch demoSnap "pages/index.html" 102) 0 [] [] [] rfl
    (by decide) (by decide)).2.2

/-- Claim C10: the watcher takes the initial snapshot before the loop and
never builds at startup — the run over no polls builds nothing, and a run
builds nothing at all exactly when every later snapshot equals the initial
one, so the first build can only follow a snapshot that differs from the
baseline. -/
theorem watcher_startup_no_build (init : Snapshot) (polls : List Snapshot) :
    watchRun init [] = []
    ∧ ((watchRun init polls).count true = 0 ↔ ∀ r ∈ polls, snapEq r init = true) := by
  refine ⟨rfl, ?_, fun h => watchRun_no_trigger h⟩
  induction polls with
  | nil =>
    intro _ r hr
    cases hr
  | cons cur rest ih =>
    intro h r hr
    cases hc : snapEq cur init with
    | false =>
      rw [watchRun] at h
      simp only [watchStep, hc] at h
      rw [if_neg (by simp)] at h
      simp [List.count_cons] at h
    | true =>
      rw [watchRun] at h
      simp only [watchStep, hc] at h
      rw [if_pos (by simp)] at h
      rw [List.count_cons] at h
      simp only [if_neg (by simp : ¬ (true = false)), Nat.add_zero] at h
      rcases List.mem_cons.mp hr with rfl | hr2
      · exact hc
      · exact ih h r hr2

/-- A concrete rendering function for the builder witnesses: every page
renders to its own path. -/
def demoRender : RenderFn := fun _tmpl _pages p _ctx => pathStr p

/-- A concrete input filesystem with two pages, one static file and a stale
output directory. -/
def fs0 : FS :=
  ⟨some [(["index.html"], ""), (["about.html"], "")], [],
   some [(["styles.css"], "body")], some [(["stale.txt"], "junk")]⟩

/-- The filesystem a build of `fs0` produces. -/
def fs0out : FS :=
  ⟨some [(["index.html"], ""), (["about.html"], "")], [],
   some [(["styles.css"], "body")],
   some [(["static", "styles.css"], "body"), (["about.html"], "about.html"),
         (["index.html"], "index.html")]⟩

/-- Witness for `build_idempotent`: rebuilding the concrete built filesystem
reproduces it unchanged. -/
theorem build_idempotent_witness :
    build_main demoRender 2025 fs0out = Except.ok fs0out :=
  build_idempotent demoRender 2025 fs0 fs0out (by rfl)

/-- Witness for `build_destructive_clean`: the page `about.html` found in the
built output directory is one of the build's own outputs (while the stale
file is not among the keys). -/
theorem build_destructive_clean_witness :
    (["about.html"] : RelPath) ∈ outputKeys fs0 :=
  (build_destructive_clean demoRender 2025 fs0 fs0out
      [(["static", "styles.css"], "body"), (["about.html"], "about.html"),
       (["index.html"], "index.html")]).2.2.2 (by rfl) (by rfl)
    ["about.html"] (by decide)
